import Mathlib

/-!
Shallow embedding of the SH1107 OLED driver core (command encoder and the
two transports) and proofs about it.

Rust `u8` values are represented as `Nat`; every arithmetic operation the
source performs on them is a bitwise mask/or/shift whose result stays below
256, except the page counter in `send_data`, which is emitted modulo 256.
Fallible Rust calls are embedded as values of `Outcome`, which distinguishes
a normal return, a recoverable `Err`, and a panic.
-/

namespace SH1107

/-- Result of running a piece of the Rust code: a normal return, a
recoverable error, or a panic (out-of-bounds slice index, or a
`copy_from_slice` length mismatch). -/
inductive Outcome (ε α : Type) where
  | ok (a : α)
  | err (e : ε)
  | panicked
deriving DecidableEq, Repr

/-- Modelled from the spec: the crate-root error union (its defining module,
the crate root, is not under src/; the src code uses it as `Error::Comm` and
`Error::Pin`): a tagged union over two independent failure axes, a
communication failure carried from the underlying bus and a pin-control
failure carried from the underlying GPIO capability. -/
inductive Error (CommE PinE : Type) where
  | Comm (e : CommE)
  | Pin (e : PinE)
deriving DecidableEq, Repr

/-- Whether an error value is the pin-failure variant. -/
def Error.isPin : Error CommE PinE → Bool
  | .Pin _ => true
  | .Comm _ => false

/-- Display page, from command.rs: an index 0–15 identifying an 8-row band. -/
inductive Page where
  | Page0 | Page1 | Page2 | Page3 | Page4 | Page5 | Page6 | Page7
  | Page8 | Page9 | Page10 | Page11 | Page12 | Page13 | Page14 | Page15
deriving DecidableEq, Repr

/-- Numeric value of a page, the `Page as u8` cast from command.rs. -/
def Page.toU8 : Page → Nat
  | .Page0 => 0 | .Page1 => 1 | .Page2 => 2 | .Page3 => 3
  | .Page4 => 4 | .Page5 => 5 | .Page6 => 6 | .Page7 => 7
  | .Page8 => 8 | .Page9 => 9 | .Page10 => 10 | .Page11 => 11
  | .Page12 => 12 | .Page13 => 13 | .Page14 => 14 | .Page15 => 15

/-- Embedding of `impl From<u8> for Page` (command.rs lines 134–156): match
on `val / 8`, with the catch-all arm being `panic!("Page too high")`.
`Empty` as the error axis records that the function never returns a
recoverable error: it either succeeds or panics. -/
def Page.fromU8 (val : Nat) : Outcome Empty Page :=
  match val / 8 with
  | 0 => .ok .Page0
  | 1 => .ok .Page1
  | 2 => .ok .Page2
  | 3 => .ok .Page3
  | 4 => .ok .Page4
  | 5 => .ok .Page5
  | 6 => .ok .Page6
  | 7 => .ok .Page7
  | 8 => .ok .Page8
  | 9 => .ok .Page9
  | 10 => .ok .Page10
  | 11 => .ok .Page11
  | 12 => .ok .Page12
  | 13 => .ok .Page13
  | 14 => .ok .Page14
  | 15 => .ok .Page15
  | _ => .panicked

/-- Vcomh deselect level presets from command.rs. -/
inductive VcomhLevel where
  | V065 | V077 | V083 | Auto
deriving DecidableEq, Repr

/-- Numeric value of a Vcomh level, the `level as u8` cast from command.rs. -/
def VcomhLevel.toU8 : VcomhLevel → Nat
  | .V065 => 0x22
  | .V077 => 0x35
  | .V083 => 0x3E
  | .Auto => 0x40

/-- SH1107 commands, from command.rs. Rust `u8` parameters become `Nat`,
`bool` parameters become `Bool`. -/
inductive Command where
  | Contrast (val : Nat)
  | AllOn (o : Bool)
  | Invert (inv : Bool)
  | DisplayOn  (o : Bool)
  | ColumnAddressLow (addr : Nat)
  | ColumnAddressHigh (addr : Nat)
  | MemAddressMode (mode : Nat)
  | PageAddress (page : Page)
  | StartLine (line : Nat)
  | SegmentRemap (remap : Bool)
  | Multiplex (ratio : Nat)
  | ReverseComDir (rev : Bool)
  | DisplayOffset (offset : Nat)
  | ComPinConfig (alt : Bool)
  | DisplayClockDiv (fosc div : Nat)
  | PreChargePeriod (discharge precharge : Nat)
  | VcomhDeselect (level : VcomhLevel)
  | Noop
  | ChargePump (en : Bool)

/-- The `match self` of `Command::send` (command.rs lines 61–90): the 7-byte
wire buffer together with the real length for sending. -/
def Command.encode : Command → List Nat × Nat
  | .Contrast val => ([0x81, val, 0, 0, 0, 0, 0], 2)
  | .AllOn o => ([0xA4 ||| o.toNat, 0, 0, 0, 0, 0, 0], 1)
  | .Invert inv => ([0xA6 ||| inv.toNat, 0, 0, 0, 0, 0, 0], 1)
  | .DisplayOn o => ([0xAE ||| o.toNat, 0, 0, 0, 0, 0, 0], 1)
  | .ColumnAddressLow addr => ([0xF &&& addr, 0, 0, 0, 0, 0, 0], 1)
  | .ColumnAddressHigh addr => ([0x10 ||| (0xF &&& addr), 0, 0, 0, 0, 0, 0], 1)
  | .MemAddressMode mode => ([0x20 ||| mode, 0, 0, 0, 0, 0, 0], 1)
  | .PageAddress page => ([0xB0 ||| page.toU8, 0, 0, 0, 0, 0, 0], 1)
  | .StartLine line => ([0xDC, line, 0, 0, 0, 0, 0], 2)
  | .SegmentRemap remap => ([0xA0 ||| remap.toNat, 0, 0, 0, 0, 0, 0], 1)
  | .Multiplex ratio => ([0xA8, ratio, 0, 0, 0, 0, 0], 2)
  | .ReverseComDir rev => ([0xC0 ||| (rev.toNat <<< 3), 0, 0, 0, 0, 0, 0], 1)
  | .DisplayOffset offset => ([0xD3, offset, 0, 0, 0, 0, 0], 2)
  | .ComPinConfig alt => ([0xDA, 0x02 ||| (alt.toNat <<< 4), 0, 0, 0, 0, 0], 2)
  | .DisplayClockDiv fosc div =>
      ([0xD5, ((0xF &&& fosc) <<< 4) ||| (0xF &&& div), 0, 0, 0, 0, 0], 2)
  | .PreChargePeriod discharge precharge =>
      ([0xD9, ((0xF &&& discharge) <<< 4) ||| (0xF &&& precharge), 0, 0, 0, 0, 0], 2)
  | .VcomhDeselect level => ([0xDB, level.toU8, 0, 0, 0, 0, 0], 2)
  | .Noop => ([0xE3, 0, 0, 0, 0, 0, 0], 1)
  | .ChargePump en => ([0xAD, 0x8A ||| en.toNat, 0, 0, 0, 0, 0], 2)

/-- The bytes `Command::send` passes to the transport: the slice
`&data[0..len]` of the encoded wire buffer (command.rs line 93). -/
def Command.sendBytes (c : Command) : List Nat :=
  c.encode.1.take c.encode.2

/-- Written from the words of the spec, section 4.1: the table mapping every
command to its literal wire byte sequence. Kept separate from
`Command.encode` (which is translated from command.rs) so that the two can
be compared. -/
def specTable : Command → List Nat
  | .Contrast v => [0x81, v]
  | .AllOn o => [0xA4 ||| o.toNat]
  | .Invert o => [0xA6 ||| o.toNat]
  | .DisplayOn o => [0xAE ||| o.toNat]
  | .ColumnAddressLow a => [a &&& 0xF]
  | .ColumnAddressHigh a => [0x10 ||| (a &&& 0xF)]
  | .MemAddressMode m => [0x20 ||| m]
  | .PageAddress p => [0xB0 ||| p.toU8]
  | .StartLine l => [0xDC, l]
  | .SegmentRemap o => [0xA0 ||| o.toNat]
  | .Multiplex r => [0xA8, r]
  | .ReverseComDir o => [0xC0 ||| (o.toNat <<< 3)]
  | .DisplayOffset o => [0xD3, o]
  | .ComPinConfig alt => [0xDA, 0x02 ||| (alt.toNat <<< 4)]
  | .DisplayClockDiv f d => [0xD5, ((f &&& 0xF) <<< 4) ||| (d &&& 0xF)]
  | .PreChargePeriod dis pre => [0xD9, ((dis &&& 0xF) <<< 4) ||| (pre &&& 0xF)]
  | .VcomhDeselect level => [0xDB, level.toU8]
  | .Noop => [0xE3]
  | .ChargePump en => [0xAD, 0x8A ||| en.toNat]

/-! ## The addressed-bus (I2C) transport, from interface/i2c.rs

The generic `I2C: hal::i2c::I2c` capability is embedded as a deterministic
model bus: `respond` decides, from the writes already performed and the
current write, whether this write fails with a communication error;
successful writes are appended to the log, failed writes are not. -/

/-- A model of the two-wire bus capability consumed by the transport:
`respond log addr bytes` is `some e` when this write fails with error `e`. -/
structure I2cBus (CommE : Type) where
  respond : List (Nat × List Nat) → Nat → List Nat → Option CommE

/-- Observable bus state: the log of completed writes, each a device address
together with the payload bytes. -/
structure I2cState where
  log : List (Nat × List Nat)
deriving DecidableEq, Repr

/-- One call of `self.i2c.write(addr, bytes)`. -/
def i2cWrite (bus : I2cBus CommE) (s : I2cState) (addr : Nat)
    (bytes : List Nat) : I2cState × Except CommE Unit :=
  match bus.respond s.log addr bytes with
  | some e => (s, .error e)
  | none => (⟨s.log ++ [(addr, bytes)]⟩, .ok ())

/-- The bus that accepts every write. -/
def okBus (CommE : Type) : I2cBus CommE := ⟨fun _ _ _ => none⟩

/-- A bus on which exactly the `k`-th write (0-based, counting completed
writes) fails with `e` and every other write succeeds. -/
def failNthBus (k : Nat) (e : CommE) : I2cBus CommE :=
  ⟨fun log _ _ => if log.length = k then some e else none⟩

/-- Rust `dst[start..start+src.len()].copy_from_slice(src)` on a list, the
in-bounds case: the elements at positions `start..start+src.length` are
replaced by `src`. -/
def setSlice (dst : List Nat) (start : Nat) (src : List Nat) : List Nat :=
  dst.take start ++ src ++ dst.drop (start + src.length)

/-- Rust `slice.chunks(n)` with explicit fuel (structural recursion so that
concrete instances reduce); each step consumes at least one element when
`n > 0`, so `fuel = l.length` suffices. -/
def chunksOfFuel : Nat → Nat → List α → List (List α)
  | 0, _, _ => []
  | _, _, [] => []
  | fuel + 1, n, a :: l => (a :: l).take n :: chunksOfFuel fuel n ((a :: l).drop n)

/-- Rust `slice.chunks(n)` for `n > 0`: successive chunks of `n` elements,
the last chunk possibly shorter. The source only uses `n = 64`. -/
def chunksOf (n : Nat) (l : List α) : List (List α) :=
  chunksOfFuel l.length n l

/-- The I2C interface struct from i2c.rs: it owns the bus handle (modelled
separately as `I2cBus` plus `I2cState`) and the device address. -/
structure I2cInterface where
  addr : Nat

/-- Embedding of `I2cInterface::send_commands` (i2c.rs lines 34–42): an
8-byte zeroed buffer, `writebuf[1..=cmds.len()].copy_from_slice(&cmds)`
(indexing out of range — a panic — when `cmds.len() > 7`), then one bus
write of `&writebuf[..=cmds.len()]`. -/
def I2cInterface.send_commands (bus : I2cBus CommE) (iface : I2cInterface)
    (cmds : List Nat) (s : I2cState) :
    I2cState × Outcome (Error CommE Unit) Unit :=
  if cmds.length + 1 ≤ 8 then
    let writebuf := setSlice (List.replicate 8 0) 1 cmds
    match i2cWrite bus s iface.addr (writebuf.take (cmds.length + 1)) with
    | (s2, .ok _) => (s2, .ok ())
    | (s2, .error e) => (s2, .err (.Comm e))
  else (s, .panicked)

/-- The loop body of `I2cInterface::send_data` (i2c.rs lines 62–82), one
iteration per chunk. `writebuf` is the persistent 65-byte buffer whose slot
0 holds 0x40; `writebuf[1..BUFLEN].copy_from_slice(&chunk)` panics when the
chunk is shorter than 64 bytes (destination window length 64, source length
`chunk.length`). The page counter is a `u8`, so the control frame carries
`page % 256`. -/
def sendDataLoop (bus : I2cBus CommE) (addr : Nat) :
    Nat → List Nat → List (List Nat) → I2cState →
    I2cState × Outcome (Error CommE Unit) Unit
  | _, _, [], s => (s, .ok ())
  | page, writebuf, chunk :: rest, s =>
    if chunk.length = 64 then
      let wb := setSlice writebuf 1 chunk
      match i2cWrite bus s addr [0x00, page % 256, 0x00, 0x10] with
      | (s2, .error e) => (s2, .err (.Comm e))
      | (s2, .ok _) =>
        match i2cWrite bus s2 addr wb with
        | (s3, .error e) => (s3, .err (.Comm e))
        | (s3, .ok _) => sendDataLoop bus addr (page + 1) wb rest s3
    else (s, .panicked)

/-- Embedding of `I2cInterface::send_data` (i2c.rs lines 44–85): return
`Ok(())` on an empty buffer without touching the bus; otherwise initialise
`writebuf` to `[0x40, 0, …, 0]` (65 bytes) and run the chunk loop over
`buf.chunks(64)` starting at page 0. -/
def I2cInterface.send_data (bus : I2cBus CommE) (iface : I2cInterface)
    (buf : List Nat) (s : I2cState) :
    I2cState × Outcome (Error CommE Unit) Unit :=
  if buf.isEmpty then (s, .ok ())
  else sendDataLoop bus iface.addr 0 (0x40 :: List.replicate 64 0)
    (chunksOf 64 buf) s

/-- The associated error type of the I2C transport, from i2c.rs line 28:
`type Error = Error<I2C::Error, ()>` — the pin axis is instantiated with the
unit type. -/
def I2cErrorOf (CommE : Type) : Type := Error CommE Unit

/-- Whether an outcome is a recoverable error of the pin-failure variant. -/
def Outcome.isPinFailure : Outcome (Error CommE PinE) α → Bool
  | .err e => e.isPin
  | _ => false

/-! ## The chip-select (SPI) transport, from interface/spi.rs

A call is embedded as the trace of hardware events it performs (chip-select
edges, data/command-selector edges, stream writes) together with its
outcome. The environment decides which of the at-most-three underlying
operations of one call fails; a failing operation performs no event. -/

/-- One observable hardware event of the SPI transport. -/
inductive SpiEvent where
  | csLow
  | csHigh
  | dcLow
  | dcHigh
  | streamWrite (bytes : List Nat)
deriving DecidableEq, Repr

/-- Whether an event touches the data/command selector pin. -/
def SpiEvent.isDc : SpiEvent → Bool
  | .dcLow => true
  | .dcHigh => true
  | _ => false

/-- Behaviour of the capabilities underlying one SPI-transport call:
whether `cs.set_low()`, `spi.write(..)` and `cs.set_high()` fail, and with
which error. -/
structure SpiEnv (CommE PinE : Type) where
  csLowResult : Option PinE
  writeResult : Option CommE
  csHighResult : Option PinE

/-- Embedding of `SpiInterface::send_commands` (spi.rs lines 41–49):
`cs.set_low()?`, then `spi.write(&cmds)?`, then `cs.set_high()`; the two
`dc` lines in the source are commented out. Returns the event trace of the
call and its result. -/
def SpiInterface.send_commands (env : SpiEnv CommE PinE) (cmds : List Nat) :
    List SpiEvent × Outcome (Error CommE PinE) Unit :=
  match env.csLowResult with
  | some e => ([], .err (.Pin e))
  | none =>
    match env.writeResult with
    | some e => ([.csLow], .err (.Comm e))
    | none =>
      match env.csHighResult with
      | some e => ([.csLow, .streamWrite cmds], .err (.Pin e))
      | none => ([.csLow, .streamWrite cmds, .csHigh], .ok ())

/-- Embedding of `SpiInterface::send_data` (spi.rs lines 51–60):
`cs.set_low()?`, then `spi.write(&buf)?`, then `cs.set_high()`; the `dc`
line in the source is commented out. -/
def SpiInterface.send_data (env : SpiEnv CommE PinE) (buf : List Nat) :
    List SpiEvent × Outcome (Error CommE PinE) Unit :=
  match env.csLowResult with
  | some e => ([], .err (.Pin e))
  | none =>
    match env.writeResult with
    | some e => ([.csLow], .err (.Comm e))
    | none =>
      match env.csHighResult with
      | some e => ([.csLow, .streamWrite buf], .err (.Pin e))
      | none => ([.csLow, .streamWrite buf, .csHigh], .ok ())

/-! ## Helper lemmas -/

lemma setSlice_replicate_take (cmds : List Nat) :
    (setSlice (List.replicate 8 0) 1 cmds).take (cmds.length + 1) =
      0x00 :: cmds := by
  have h1 : (List.replicate 8 (0 : Nat)).take 1 = [0] := rfl
  simp only [setSlice, h1, List.cons_append, List.nil_append,
    List.take_succ_cons]
  rw [List.take_left]

lemma chunksOfFuel_nil (fuel n : Nat) :
    chunksOfFuel fuel n ([] : List α) = [] := by
  cases fuel <;> rfl

lemma chunksOfFuel_pos (fuel n : Nat) (l : List α) (h : l ≠ []) :
    chunksOfFuel (fuel + 1) n l =
      l.take n :: chunksOfFuel fuel n (l.drop n) := by
  cases l with
  | nil => exact absurd rfl h
  | cons a t => rfl

lemma chunksOf_two_full (c1 c2 : List Nat) (h1 : c1.length = 64)
    (h2 : c2.length = 64) : chunksOf 64 (c1 ++ c2) = [c1, c2] := by
  have hl : (c1 ++ c2).length = 128 := by simp [h1, h2]
  have hne1 : c1 ++ c2 ≠ [] := by
    intro h
    simp [h] at hl
  have hne2 : c2 ≠ [] := by
    intro h
    rw [h] at h2
    simp at h2
  rw [chunksOf, hl, show (128 : Nat) = 127 + 1 from rfl,
    chunksOfFuel_pos _ _ _ hne1]
  rw [← h1, List.take_left, List.drop_left]
  rw [show (127 : Nat) = 126 + 1 from rfl, chunksOfFuel_pos _ _ _ hne2]
  rw [h1, ← h2, List.take_length, List.drop_length, chunksOfFuel_nil]

lemma setSlice_cons_one (b : Nat) (t c : List Nat) :
    setSlice (b :: t) 1 c = b :: (c ++ t.drop c.length) := by
  simp [setSlice, Nat.add_comm 1 c.length]

lemma sendDataLoop_never_pin (bus : I2cBus CommE) (addr : Nat)
    (chunks : List (List Nat)) :
    ∀ (page : Nat) (wb : List Nat) (s : I2cState),
    (sendDataLoop bus addr page wb chunks s).2.isPinFailure = false := by
  induction chunks with
  | nil => intro page wb s; rfl
  | cons c rest ih =>
    intro page wb s
    simp only [sendDataLoop]
    split
    · split
      · simp [Outcome.isPinFailure, Error.isPin]
      · split
        · simp [Outcome.isPinFailure, Error.isPin]
        · exact ih _ _ _
    · rfl

/-! ## The claims -/

/-- Claim C1 (evaluation at the failing input): on a 130-byte buffer,
addressed-bus `send_data` does NOT issue three control/data write pairs of
chunk sizes 64, 64, 2. It completes the two full-chunk pairs (pages 0 and
1) and then panics on the 2-byte final chunk: the loop copies every chunk
into the fixed 64-byte window `writebuf[1..65]` with `copy_from_slice`,
which panics when the source length (2) differs from the destination length
(64). The claimed third pair is never issued. -/
theorem i2c_send_data_130_bytes_panics :
    I2cInterface.send_data (okBus Unit) ⟨0x3C⟩ (List.replicate 130 7) ⟨[]⟩ =
      (⟨[(0x3C, [0x00, 0, 0x00, 0x10]), (0x3C, 0x40 :: List.replicate 64 7),
         (0x3C, [0x00, 1, 0x00, 0x10]),
         (0x3C, 0x40 :: List.replicate 64 7)]⟩,
       .panicked) := by
  set_option maxRecDepth 4000 in rfl

/-- Claim C2: for every `Command` variant, encoding is pure and total (it is
a Lean function), the sent byte sequence equals the literal section 4.1
table (`specTable`, written from the spec), the length is always 1 or 2,
and `Command::send` passes exactly the first `length` bytes of the 7-byte
wire buffer (`Command.sendBytes` is that slice), so the padding is never
transmitted. The representative cases are stated explicitly. -/
theorem command_encoding_matches_spec :
    (∀ c : Command, Command.sendBytes c = specTable c ∧
      (c.encode.2 = 1 ∨ c.encode.2 = 2) ∧
      (Command.sendBytes c).length = c.encode.2) ∧
    Command.sendBytes (.Contrast 0x50) = [0x81, 0x50] ∧
    Command.sendBytes (.AllOn true) = [0xA5] ∧
    Command.sendBytes (.AllOn false) = [0xA4] ∧
    Command.sendBytes (.Multiplex 0x3F) = [0xA8, 0x3F] ∧
    Command.sendBytes .Noop = [0xE3] := by
  refine ⟨fun c => ?_, by decide, by decide, by decide, by decide, by decide⟩
  cases c <;>
    simp [Command.sendBytes, Command.encode, specTable, Nat.and_comm]

/-- Claim C3: for every `u8` input below 128, `Page::from` yields the page
whose numeric value is the input divided by 8 (so 0–7 give Page0, 8–15 give
Page1, 127 gives Page15), the constructed value is always in [0, 15], and
every input in [128, 255] is a fatal condition (panic), not a recoverable
error. -/
theorem page_from_div8 :
    (∀ val : Nat, val < 128 →
      ∃ p : Page, Page.fromU8 val = .ok p ∧ p.toU8 = val / 8 ∧
        p.toU8 ≤ 15) ∧
    (∀ val : Nat, 128 ≤ val → val < 256 → Page.fromU8 val = .panicked) ∧
    Page.fromU8 0 = .ok .Page0 ∧ Page.fromU8 7 = .ok .Page0 ∧
    Page.fromU8 8 = .ok .Page1 ∧ Page.fromU8 15 = .ok .Page1 ∧
    Page.fromU8 127 = .ok .Page15 := by
  refine ⟨?_, ?_, rfl, rfl, rfl, rfl, rfl⟩
  · intro val h
    obtain ⟨q, hq⟩ : ∃ q, val / 8 = q := ⟨_, rfl⟩
    have hq16 : q < 16 := by omega
    simp only [Page.fromU8, hq]
    interval_cases q <;>
      exact ⟨_, rfl, by simp [Page.toU8, hq], by simp [Page.toU8]⟩
  · intro val h1 h2
    obtain ⟨q, hq⟩ : ∃ q, val / 8 = q := ⟨_, rfl⟩
    have hql : 16 ≤ q := by omega
    have hqh : q < 32 := by omega
    simp only [Page.fromU8, hq]
    interval_cases q <;> rfl

/-- Claim C3, witness: the theorem applied at the concrete inputs 127 and
128. -/
theorem page_from_div8_witness :
    (∃ p : Page, Page.fromU8 127 = .ok p ∧ p.toU8 = 127 / 8 ∧
      p.toU8 ≤ 15) ∧
    Page.fromU8 128 = .panicked :=
  ⟨page_from_div8.1 127 (by decide),
   page_from_div8.2.1 128 (by decide) (by decide)⟩

/-- Claim C4: with a bus that fails a write of the second chunk of a
two-full-chunk `send_data` call, the call returns that failure immediately
and verbatim, wrapped only as the communication variant; no further bus
writes occur and the earlier writes stay in the log (no rollback or retry).
Failing the page-select write of the second chunk (the 2nd completed write,
0-based) leaves exactly the first chunk's control/data pair in the log;
failing the data write of the second chunk leaves those two writes plus the
second page-select write. -/
theorem i2c_send_data_fail_aborts (addr : Nat) (c1 c2 : List Nat) (e : CommE)
    (h1 : c1.length = 64) (h2 : c2.length = 64) :
    I2cInterface.send_data (failNthBus 2 e) ⟨addr⟩ (c1 ++ c2) ⟨[]⟩ =
      (⟨[(addr, [0x00, 0, 0x00, 0x10]), (addr, 0x40 :: c1)]⟩,
       .err (.Comm e)) ∧
    I2cInterface.send_data (failNthBus 3 e) ⟨addr⟩ (c1 ++ c2) ⟨[]⟩ =
      (⟨[(addr, [0x00, 0, 0x00, 0x10]), (addr, 0x40 :: c1),
         (addr, [0x00, 1, 0x00, 0x10])]⟩,
       .err (.Comm e)) := by
  have hne : (c1 ++ c2).isEmpty = false := by
    cases c1 with
    | nil => simp at h1
    | cons a t => rfl
  constructor <;>
  · simp only [I2cInterface.send_data, hne, Bool.false_eq_true, if_false,
      chunksOf_two_full c1 c2 h1 h2]
    have hd1 : c1.drop 64 = [] := by
      rw [← h1]
      exact List.drop_length c1
    simp [sendDataLoop, i2cWrite, failNthBus, h1, h2, setSlice_cons_one, hd1]

/-- Claim C4, witness: the theorem applied to two concrete 64-byte chunks
with the failure on the second chunk's page-select write. -/
theorem i2c_send_data_fail_aborts_witness :
    I2cInterface.send_data (failNthBus 2 ()) ⟨0x3C⟩
        (List.replicate 64 5 ++ List.replicate 64 6) ⟨[]⟩ =
      (⟨[(0x3C, [0x00, 0, 0x00, 0x10]),
         (0x3C, 0x40 :: List.replicate 64 5)]⟩, .err (.Comm ())) :=
  (i2c_send_data_fail_aborts 0x3C (List.replicate 64 5)
    (List.replicate 64 6) () (by simp) (by simp)).1

/-- Claim C5: on the chip-select transport, a `send_commands` or `send_data`
call with no failing step performs exactly chip-select-low, then the single
stream write, then chip-select-high — so the pin is low before, strictly
during, and released high before returning. If a step fails, the call
aborts with that failure and performs nothing further, leaving the
chip-select state exactly as the failing step left it (in particular a
stream-write failure leaves chip-select low: deselect-on-error is not
guaranteed). -/
theorem spi_cs_framing (env : SpiEnv CommE PinE) (cmds buf : List Nat) :
    (env.csLowResult = none → env.writeResult = none →
      env.csHighResult = none →
      SpiInterface.send_commands env cmds =
        ([.csLow, .streamWrite cmds, .csHigh], .ok ()) ∧
      SpiInterface.send_data env buf =
        ([.csLow, .streamWrite buf, .csHigh], .ok ())) ∧
    (∀ e, env.csLowResult = some e →
      SpiInterface.send_commands env cmds = ([], .err (.Pin e)) ∧
      SpiInterface.send_data env buf = ([], .err (.Pin e))) ∧
    (∀ e, env.csLowResult = none → env.writeResult = some e →
      SpiInterface.send_commands env cmds = ([.csLow], .err (.Comm e)) ∧
      SpiInterface.send_data env buf = ([.csLow], .err (.Comm e))) ∧
    (∀ e, env.csLowResult = none → env.writeResult = none →
      env.csHighResult = some e →
      SpiInterface.send_commands env cmds =
        ([.csLow, .streamWrite cmds], .err (.Pin e)) ∧
      SpiInterface.send_data env buf =
        ([.csLow, .streamWrite buf], .err (.Pin e))) := by
  obtain ⟨cl, w, ch⟩ := env
  cases cl <;> cases w <;> cases ch <;>
    simp [SpiInterface.send_commands, SpiInterface.send_data]

/-- Claim C5, witness: the theorem applied to a concrete failure-free
environment, and to one whose stream write fails. -/
theorem spi_cs_framing_witness :
    SpiInterface.send_commands (⟨none, none, none⟩ : SpiEnv Unit Unit)
        [1, 2] = ([.csLow, .streamWrite [1, 2], .csHigh], .ok ()) ∧
    SpiInterface.send_data (⟨none, some (), none⟩ : SpiEnv Unit Unit) [3] =
      ([.csLow], .err (.Comm ())) :=
  ⟨((spi_cs_framing ⟨none, none, none⟩ [1, 2] [9]).1 rfl rfl rfl).1,
   ((spi_cs_framing ⟨none, some (), none⟩ [1, 2] [3]).2.2.1 () rfl rfl).2⟩

/-- Claim C6, counterexample: the claim says the addressed-bus transport
instantiates the pin-failure axis with an uninhabited type so that no
pin-variant value can exist. In fact i2c.rs line 28 instantiates it with
the unit type `()`, which is inhabited: `Error.Pin ()` is a value of the
transport's associated error type. -/
theorem i2c_pin_error_value_exists :
    (Error.Pin () : I2cErrorOf Unit).isPin = true := rfl

/-- Claim C6 as amended: the addressed-bus transport instantiates the
pin-failure axis with the unit type (which is inhabited, so a pin-variant
value does exist as a member of the type); nevertheless none of its
operations ever returns a pin failure — every error either operation
returns is the communication variant. -/
theorem i2c_never_pin_failure (bus : I2cBus CommE) (iface : I2cInterface)
    (cmds buf : List Nat) (s : I2cState) :
    (I2cInterface.send_commands bus iface cmds s).2.isPinFailure = false ∧
    (I2cInterface.send_data bus iface buf s).2.isPinFailure = false := by
  constructor
  · simp only [I2cInterface.send_commands]
    split
    · split <;> simp [Outcome.isPinFailure, Error.isPin]
    · rfl
  · simp only [I2cInterface.send_data]
    split
    · rfl
    · exact sendDataLoop_never_pin bus iface.addr _ _ _ _

/-- Claim C7: for every command sequence of length at most 7, addressed-bus
`send_commands` issues exactly one bus write, to the configured device
address, whose payload is the command-mode marker 0x00 followed by the
commands in order — a frame of length one more than the command sequence. -/
theorem i2c_send_commands_frame (addr : Nat) (cmds : List Nat)
    (s : I2cState) (h : cmds.length ≤ 7) :
    I2cInterface.send_commands (okBus CommE) ⟨addr⟩ cmds s =
      (⟨s.log ++ [(addr, 0x00 :: cmds)]⟩, .ok ()) ∧
    (0x00 :: cmds).length = cmds.length + 1 := by
  refine ⟨?_, by simp⟩
  simp only [I2cInterface.send_commands]
  rw [if_pos (by omega), setSlice_replicate_take]
  simp [i2cWrite, okBus]

/-- Claim C7, witness: the theorem applied to the concrete two-byte
contrast command at address 0x3C. -/
theorem i2c_send_commands_frame_witness :
    I2cInterface.send_commands (okBus Unit) ⟨0x3C⟩ [0x81, 0x50] ⟨[]⟩ =
      (⟨[(0x3C, [0x00, 0x81, 0x50])]⟩, .ok ()) := by
  have h := @i2c_send_commands_frame Unit 0x3C [0x81, 0x50] ⟨[]⟩ (by decide)
  simpa using h.1

/-- Claim C8: addressed-bus `send_data` on the empty buffer returns success
immediately and leaves the bus log untouched — zero bus writes. -/
theorem i2c_send_data_empty_no_writes (bus : I2cBus CommE)
    (iface : I2cInterface) (s : I2cState) :
    I2cInterface.send_data bus iface [] s = (s, .ok ()) := rfl

/-- Claim C9: no chip-select-transport `send_commands` or `send_data` call
ever touches the data/command selector pin: whatever the environment does,
the event trace contains no selector-pin event. -/
theorem spi_dc_pin_untouched (env : SpiEnv CommE PinE)
    (cmds buf : List Nat) :
    (SpiInterface.send_commands env cmds).1.filter SpiEvent.isDc = [] ∧
    (SpiInterface.send_data env buf).1.filter SpiEvent.isDc = [] := by
  obtain ⟨cl, w, ch⟩ := env
  cases cl <;> cases w <;> cases ch <;>
    simp [SpiInterface.send_commands, SpiInterface.send_data, SpiEvent.isDc]

/-- Claim C10: addressed-bus `send_commands` indexes the fixed 8-byte frame
buffer, so a command slice of length at most 7 keeps the slice operations
in bounds and the call never panics, while a longer slice makes the slice
index out of range: the call panics before any bus activity instead of
returning an error value. -/
theorem i2c_send_commands_bounds (bus : I2cBus CommE) (iface : I2cInterface)
    (cmds : List Nat) (s : I2cState) :
    (cmds.length ≤ 7 →
      (I2cInterface.send_commands bus iface cmds s).2 ≠ .panicked) ∧
    (8 ≤ cmds.length →
      I2cInterface.send_commands bus iface cmds s = (s, .panicked)) := by
  constructor
  · intro h
    simp only [I2cInterface.send_commands]
    rw [if_pos (by omega)]
    rcases hw : i2cWrite bus s iface.addr
        ((setSlice (List.replicate 8 0) 1 cmds).take (cmds.length + 1)) with
      ⟨s2, r⟩
    cases r <;> simp
  · intro h
    simp only [I2cInterface.send_commands]
    rw [if_neg (by omega)]

/-- Claim C10, witness: the theorem applied to a 7-byte slice (no panic)
and an 8-byte slice (panic, no bus activity). -/
theorem i2c_send_commands_bounds_witness :
    (I2cInterface.send_commands (okBus Unit) ⟨0x3C⟩ [1, 2, 3, 4, 5, 6, 7]
        ⟨[]⟩).2 ≠ .panicked ∧
    I2cInterface.send_commands (okBus Unit) ⟨0x3C⟩ [1, 2, 3, 4, 5, 6, 7, 8]
        ⟨[]⟩ = (⟨[]⟩, .panicked) :=
  ⟨(i2c_send_commands_bounds (okBus Unit) ⟨0x3C⟩ [1, 2, 3, 4, 5, 6, 7]
      ⟨[]⟩).1 (by decide),
   (i2c_send_commands_bounds (okBus Unit) ⟨0x3C⟩ [1, 2, 3, 4, 5, 6, 7, 8]
      ⟨[]⟩).2 (by decide)⟩

end SH1107
